import Mathlib

/-!
Shallow embedding of the selector-to-object resolution logic of
`download_satellite_data.ipynb`: calendar resolution (`datetime(y,m,d).strftime('%j')`),
storage-key building (string concatenation with `str(v).zfill(w)`),
filename field extraction (`file.split('/')[-1].split('_')[3][a:b]`),
match selection (list comprehensions filtering a listing), and the
single-object HTTP probe (`requests.get`, `status_code`,
`headers['content-length']`, unconditional body save).

Python strings are modelled as Lean `String` (comparison and slicing happen
on the underlying `List Char`); `int` values appearing here are non-negative
and are modelled as `Nat`; code that can raise (`IndexError`, `KeyError`,
`ValueError`, transport failure) returns `Option`.
-/

namespace SatDownload

/-! ### Decimal rendering: Python `str(v)` for a non-negative int -/

/-- The ASCII digit character for a value `0`–`9` (inputs above 9 do not occur:
the function is only applied to `n % 10` or to `n < 10`). -/
def digitChar (n : Nat) : Char :=
  match n with
  | 0 => '0' | 1 => '1' | 2 => '2' | 3 => '3' | 4 => '4'
  | 5 => '5' | 6 => '6' | 7 => '7' | 8 => '8' | _ => '9'

/-- Fuelled decimal digit expansion, most significant digit first.
`fuel` bounds the recursion depth; any `fuel` with `n < 10 ^ fuel` is enough. -/
def natToDigitsAux : Nat → Nat → List Char
  | 0, _ => []
  | fuel + 1, n =>
    if n < 10 then [digitChar n]
    else natToDigitsAux fuel (n / 10) ++ [digitChar (n % 10)]

/-- Python `str(n)` for a non-negative integer: its decimal rendering. -/
def natToString (n : Nat) : String :=
  String.mk (natToDigitsAux (n + 1) n)

/-- Python `s.zfill(w)`: left-pad with `'0'` to width `w`; a string already at
least `w` long is returned unchanged (never truncated, never an error). -/
def pyZfill (s : String) (w : Nat) : String :=
  if w ≤ s.length then s else String.mk (List.replicate (w - s.length) '0' ++ s.data)

/-- Numeric value of a string of ASCII digits (the spec-side reading used to
compare the lexicographic range test with the numeric one). -/
def toNum : List Char → Nat
  | [] => 0
  | c :: cs => (c.toNat - 48) * 10 ^ cs.length + toNum cs

/-- Is `c` an ASCII digit `'0'`–`'9'`? -/
def isDigitChar (c : Char) : Bool :=
  48 ≤ c.toNat && c.toNat ≤ 57

/-! ### Python string comparison and splitting -/

/-- Python string comparison `s <= t`, lexicographic on code points: a proper
prefix is smaller, otherwise the first differing code point decides. -/
def strLeAux : List Char → List Char → Bool
  | [], _ => true
  | _ :: _, [] => false
  | a :: as, b :: bs =>
    if a.toNat = b.toNat then strLeAux as bs else decide (a.toNat < b.toNat)

/-- Python `s <= t` on strings. -/
def pyStrLe (s t : String) : Bool :=
  strLeAux s.data t.data

/-- Python `s.split(sep)` for a one-character separator: the list of chunks
between occurrences of `sep`; always non-empty, empty chunks kept. -/
def splitChar (sep : Char) : List Char → List (List Char)
  | [] => [[]]
  | c :: cs =>
    match splitChar sep cs with
    | [] => [[]]
    | t :: ts => if c = sep then [] :: t :: ts else (c :: t) :: ts

/-- Python slice `l[a:b]` for `a ≤ b`: clamps to the available characters,
never raises. -/
def pySlice (l : List Char) (a b : Nat) : List Char :=
  (l.drop a).take (b - a)

/-- Python `file.split('/')[-1]`: the last path component (`split` always
returns a non-empty list, so the `[-1]` index never fails). -/
def basename (file : String) : List Char :=
  (splitChar '/' file.data).getLastD []

/-! ### Calendar Resolver: `datetime.datetime(year, month, day).strftime('%j')` -/

/-- Proleptic Gregorian leap-year rule used by `datetime`. -/
def isLeap (y : Nat) : Bool :=
  y % 4 == 0 && (y % 100 != 0 || y % 400 == 0)

/-- Number of days in month `m` (1–12) of year `y`; 0 for out-of-range months,
so that the validity check below rejects them. -/
def daysInMonth (y m : Nat) : Nat :=
  match m with
  | 1 => 31
  | 2 => if isLeap y then 29 else 28
  | 3 => 31 | 4 => 30 | 5 => 31 | 6 => 30 | 7 => 31
  | 8 => 31 | 9 => 30 | 10 => 31 | 11 => 30 | 12 => 31
  | _ => 0

/-- Days in months `1`–`m` of year `y` (cumulative month lengths). -/
def cumDays (y : Nat) : Nat → Nat
  | 0 => 0
  | m + 1 => cumDays y m + daysInMonth y (m + 1)

/-- 1-based day-of-year of `(y, m, d)`: days in the months before `m`, plus `d`. -/
def dayOfYear (y m d : Nat) : Nat :=
  cumDays y (m - 1) + d

/-- The validity check performed by the `datetime.datetime` constructor:
year within `MINYEAR`–`MAXYEAR` (1–9999), month 1–12, day within the month. -/
def validDate (y m d : Nat) : Bool :=
  decide (1 ≤ y) && decide (y ≤ 9999) && decide (1 ≤ m) && decide (m ≤ 12) &&
    decide (1 ≤ d) && decide (d ≤ daysInMonth y m)

/-- `datetime.datetime(year, month, day).strftime('%j')`: the day-of-year
zero-padded to 3 digits; `none` models the `ValueError` raised by the
constructor on an invalid date. -/
def julian_day (y m d : Nat) : Option String :=
  if validDate y m d then some (pyZfill (natToString (dayOfYear y m d)) 3) else none

/-! ### Key Builder -/

/-- The GOES key prefix built in the notebook:
`bucket + '/' + product + '/' + str(year) + '/' + str(julian).zfill(3) + '/' + str(hour).zfill(2)`. -/
def data_path (bucket product : String) (year julian hour : Nat) : String :=
  bucket ++ "/" ++ product ++ "/" ++ natToString year ++ "/" ++
    pyZfill (natToString julian) 3 ++ "/" ++ pyZfill (natToString hour) 2

/-- The JPSS key prefix built in the notebook:
`bucket + '/' + satellite + '/' + sensor + '/' + product + '/' + str(year) + '/' + str(month).zfill(2) + '/' + str(day).zfill(2)`. -/
def files_path (bucket satellite sensor product : String) (year month day : Nat) : String :=
  bucket ++ "/" ++ satellite ++ "/" ++ sensor ++ "/" ++ product ++ "/" ++
    natToString year ++ "/" ++ pyZfill (natToString month) 2 ++ "/" ++
    pyZfill (natToString day) 2

/-! ### Filename Field Extractor -/

/-- ABI start-time field: `file.split('/')[-1].split('_')[3][8:12]`.
`none` models the `IndexError` raised when the name has fewer than four
`'_'`-delimited tokens; the slice itself clamps and cannot fail. -/
def extractABIStart (file : String) : Option String :=
  let toks := splitChar '_' (basename file)
  if 3 < toks.length then some (String.mk (pySlice (toks.getD 3 []) 8 12)) else none

/-- VIIRS AF start-time field: `file.split('/')[-1].split('_')[3][9:13]`. -/
def extractVIIRSStart (file : String) : Option (List Char) :=
  let toks := splitChar '_' (basename file)
  if 3 < toks.length then some (pySlice (toks.getD 3 []) 9 13) else none

/-! ### Match Selector -/

/-- A list comprehension `[file for file in files if p file]` with a pure,
total predicate over the listing elements. -/
def matchSelector (p : String → Bool) (files : List String) : List String :=
  files.filter p

/-- The VIIRS AF range match:
`[file for file in files if (file.split('/')[-1].split('_')[3][9:13] >= start_time and ... <= end_time)]`.
`none` models the `IndexError` escaping the comprehension when some listed
name has fewer than four `'_'`-delimited tokens. -/
def viirsRangeMatches (start_time end_time : String) : List String → Option (List String)
  | [] => some []
  | f :: fs =>
    match extractVIIRSStart f with
    | none => none
    | some t =>
      match viirsRangeMatches start_time end_time fs with
      | none => none
      | some rest =>
        some (if strLeAux start_time.data t && strLeAux t end_time.data then f :: rest else rest)

/-! ### Single-object probe (`requests.get` against the web archive) -/

/-- The fields of an HTTP response the notebook reads: `response.status_code`,
`response.headers['content-length']` (`none` when the header is absent, in
which case the lookup raises `KeyError`), and `response.content`. -/
structure HttpResponse where
  status_code : Nat
  content_length : Option String
  content : List Nat

/-- The notebook's probe-and-save sequence: `requests.get(url + file_name)`
(`none` input models a transport failure raising inside `get`), then
`file_size = response.headers['content-length']`, then the body is written to
disk. The result pairs the reported size string with the saved bytes; the
status code is printed but never branched on. -/
def webProbe : Option HttpResponse → Option (String × List Nat)
  | none => none
  | some resp =>
    match resp.content_length with
    | none => none
    | some sz => some (sz, resp.content)

end SatDownload

namespace SatDownload

theorem toNum_append (a b : List Char) :
    toNum (a ++ b) = toNum a * 10 ^ b.length + toNum b := by
  induction a with
  | nil => simp [toNum]
  | cons c cs ih =>
    simp only [List.cons_append, toNum, List.append_eq, List.length_append, ih]
    ring

theorem toNum_lt (l : List Char) (h : ∀ c ∈ l, isDigitChar c = true) :
    toNum l < 10 ^ l.length := by
  induction l with
  | nil => simp [toNum]
  | cons c cs ih =>
    have hc : isDigitChar c = true := h c (List.mem_cons_self c cs)
    have hcs : toNum cs < 10 ^ cs.length := ih fun x hx => h x (List.mem_cons_of_mem c hx)
    have hd : c.toNat - 48 ≤ 9 := by
      simp only [isDigitChar, Bool.and_eq_true, decide_eq_true_eq] at hc
      omega
    simp only [toNum, List.length_cons, pow_succ]
    calc (c.toNat - 48) * 10 ^ cs.length + toNum cs
        < (c.toNat - 48) * 10 ^ cs.length + 10 ^ cs.length := by omega
      _ = (c.toNat - 48 + 1) * 10 ^ cs.length := by ring
      _ ≤ 10 * 10 ^ cs.length := by
          exact Nat.mul_le_mul_right _ (by omega)
      _ = 10 ^ cs.length * 10 := by ring

theorem toNum_replicate_zero (k : Nat) (l : List Char) :
    toNum (List.replicate k '0' ++ l) = toNum l := by
  induction k with
  | zero => simp
  | succ n ih =>
    have h0 : '0'.toNat - 48 = 0 := rfl
    simp only [List.replicate_succ, List.cons_append, toNum, List.append_eq, ih, h0,
      Nat.zero_mul, Nat.zero_add]

theorem digitChar_isDigit (n : Nat) : isDigitChar (digitChar n) = true := by
  match n with
  | 0 | 1 | 2 | 3 | 4 | 5 | 6 | 7 | 8 => rfl
  | _ + 9 => rfl

theorem digitChar_toNat (n : Nat) (h : n < 10) : (digitChar n).toNat - 48 = n := by
  interval_cases n <;> decide

theorem natToDigitsAux_digits (fuel n : Nat) :
    ∀ c ∈ natToDigitsAux fuel n, isDigitChar c = true := by
  induction fuel generalizing n with
  | zero => simp [natToDigitsAux]
  | succ f ih =>
    intro c hc
    simp only [natToDigitsAux] at hc
    by_cases hn : n < 10
    · simp [hn] at hc
      subst hc; exact digitChar_isDigit n
    · simp [hn, List.mem_append] at hc
      rcases hc with hc | hc
      · exact ih (n / 10) c hc
      · subst hc; exact digitChar_isDigit (n % 10)

theorem toNum_natToDigitsAux (fuel n : Nat) (h : n < 10 ^ fuel) :
    toNum (natToDigitsAux fuel n) = n := by
  induction fuel generalizing n with
  | zero => simp at h; simp [h, natToDigitsAux, toNum]
  | succ f ih =>
    by_cases hn : n < 10
    · simp only [natToDigitsAux, if_pos hn, toNum, List.length_nil, pow_zero, mul_one]
      have := digitChar_toNat n hn
      omega
    · simp only [natToDigitsAux, if_neg hn, toNum_append]
      have hdiv : n / 10 < 10 ^ f := by
        rw [Nat.div_lt_iff_lt_mul (by norm_num)]
        calc n < 10 ^ (f + 1) := h
          _ = 10 ^ f * 10 := pow_succ 10 f
      rw [ih (n / 10) hdiv]
      simp only [toNum, List.length_cons, List.length_nil, pow_zero, mul_one, pow_one]
      have := digitChar_toNat (n % 10) (Nat.mod_lt n (by norm_num))
      omega

theorem toNum_natToString (n : Nat) : toNum (natToString n).data = n := by
  have hfuel : n < 10 ^ (n + 1) := by
    calc n < n + 1 := Nat.lt_succ_self n
      _ ≤ 10 ^ (n + 1) := Nat.le_of_lt (Nat.lt_pow_self (by norm_num) _)
  simpa [natToString] using toNum_natToDigitsAux (n + 1) n hfuel

theorem natToDigitsAux_length (fuel n k : Nat) (hk : 1 ≤ k) (h : n < 10 ^ k) :
    (natToDigitsAux fuel n).length ≤ k := by
  induction fuel generalizing n k with
  | zero => simp [natToDigitsAux]
  | succ f ih =>
    by_cases hn : n < 10
    · simp [natToDigitsAux, hn]; omega
    · simp only [natToDigitsAux, if_neg hn, List.length_append, List.length_cons,
        List.length_nil]
      have hk2 : 2 ≤ k := by
        by_contra hc
        have : k = 1 := by omega
        subst this
        simp at h; omega
      have hdiv : n / 10 < 10 ^ (k - 1) := by
        rw [Nat.div_lt_iff_lt_mul (by norm_num)]
        calc n < 10 ^ k := h
          _ = 10 ^ (k - 1) * 10 := by
              conv_lhs => rw [show k = (k - 1) + 1 by omega]
              exact pow_succ 10 (k - 1)
      have := ih (n / 10) (k - 1) (by omega) hdiv
      omega

theorem natToString_digits (n : Nat) : ∀ c ∈ (natToString n).data, isDigitChar c = true := by
  simpa [natToString] using natToDigitsAux_digits (n + 1) n

end SatDownload

namespace SatDownload

theorem pyZfill_length (s : String) (w : Nat) :
    (pyZfill s w).length = max w s.length := by
  unfold pyZfill
  split_ifs with h
  · omega
  · show (List.replicate (w - s.length) '0' ++ s.data).length = max w s.length
    simp only [List.length_append, List.length_replicate]
    have : s.data.length = s.length := rfl
    omega

theorem pyZfill_data (s : String) (w : Nat) :
    (pyZfill s w).data = List.replicate (w - s.length) '0' ++ s.data := by
  unfold pyZfill
  split_ifs with h
  · have : w - s.length = 0 := by omega
    simp [this]
  · rfl

theorem toNum_pyZfill_natToString (v w : Nat) :
    toNum (pyZfill (natToString v) w).data = v := by
  rw [pyZfill_data, toNum_replicate_zero, toNum_natToString]

theorem pyZfill_digits (s : String) (w : Nat)
    (h : ∀ c ∈ s.data, isDigitChar c = true) :
    ∀ c ∈ (pyZfill s w).data, isDigitChar c = true := by
  rw [pyZfill_data]
  intro c hc
  rcases List.mem_append.mp hc with hc | hc
  · have := List.eq_of_mem_replicate hc
    subst this; rfl
  · exact h c hc

theorem toNum_head_lt (x y : Char) (xs ys : List Char) (hlen : xs.length = ys.length)
    (hx : isDigitChar x = true) (hy : isDigitChar y = true)
    (hxs : ∀ c ∈ xs, isDigitChar c = true)
    (hxy : x.toNat < y.toNat) :
    toNum (x :: xs) < toNum (y :: ys) := by
  simp only [isDigitChar, Bool.and_eq_true, decide_eq_true_eq] at hx hy
  have hNx : toNum xs < 10 ^ xs.length := toNum_lt xs hxs
  have hd : x.toNat - 48 + 1 ≤ y.toNat - 48 := by omega
  simp only [toNum, hlen]
  calc (x.toNat - 48) * 10 ^ ys.length + toNum xs
      < (x.toNat - 48) * 10 ^ ys.length + 10 ^ ys.length := by
        rw [hlen] at hNx; omega
    _ = (x.toNat - 48 + 1) * 10 ^ ys.length := by ring
    _ ≤ (y.toNat - 48) * 10 ^ ys.length := Nat.mul_le_mul_right _ hd
    _ ≤ (y.toNat - 48) * 10 ^ ys.length + toNum ys := Nat.le_add_right _ _

theorem strLeAux_iff_toNum (a : List Char) : ∀ (b : List Char), a.length = b.length →
    (∀ c ∈ a, isDigitChar c = true) → (∀ c ∈ b, isDigitChar c = true) →
    (strLeAux a b = true ↔ toNum a ≤ toNum b) := by
  induction a with
  | nil =>
    intro b hlen _ _
    have : b = [] := List.eq_nil_of_length_eq_zero hlen.symm
    subst this
    simp [strLeAux]
  | cons x xs ih =>
    intro b hlen ha hb
    match b with
    | [] => simp at hlen
    | y :: ys =>
      have hlen' : xs.length = ys.length := by simpa using hlen
      have hax : isDigitChar x = true := ha x (List.mem_cons_self x xs)
      have hby : isDigitChar y = true := hb y (List.mem_cons_self y ys)
      have haxs : ∀ c ∈ xs, isDigitChar c = true :=
        fun c hc => ha c (List.mem_cons_of_mem x hc)
      have hbys : ∀ c ∈ ys, isDigitChar c = true :=
        fun c hc => hb c (List.mem_cons_of_mem y hc)
      unfold strLeAux
      split_ifs with hxy
      · rw [ih ys hlen' haxs hbys]
        simp only [toNum, hlen', hxy]
        exact (Nat.add_le_add_iff_left).symm
      · rcases Nat.lt_or_ge x.toNat y.toNat with hlt | hge
        · have hord := toNum_head_lt x y xs ys hlen' hax hby haxs hlt
          simp only [decide_eq_true_eq]
          constructor
          · intro _; omega
          · intro _; exact hlt
        · have hgt : y.toNat < x.toNat := by omega
          have hord := toNum_head_lt y x ys xs hlen'.symm hby hax hbys hgt
          simp only [decide_eq_true_eq]
          constructor
          · intro h; omega
          · intro h; omega

end SatDownload

namespace SatDownload

theorem strLeAux_trans : ∀ (a b c : List Char),
    strLeAux a b = true → strLeAux b c = true → strLeAux a c = true := by
  intro a
  induction a with
  | nil => intro b c _ _; rfl
  | cons x xs ih =>
    intro b c hab hbc
    match b, c with
    | [], _ => exact absurd hab (by simp [strLeAux])
    | y :: ys, [] => exact absurd hbc (by simp [strLeAux])
    | y :: ys, z :: zs =>
      unfold strLeAux at hab hbc ⊢
      split_ifs at hab hbc ⊢ <;>
        first
          | exact ih ys zs hab hbc
          | (simp only [decide_eq_true_eq] at *; omega)

theorem dayOfYear_dec31 (y : Nat) :
    dayOfYear y 12 31 = if isLeap y then 366 else 365 := by
  by_cases hl : isLeap y <;>
    simp [dayOfYear, cumDays, daysInMonth, hl]

theorem dayOfYear_bounds (y m d : Nat) (hm1 : 1 ≤ m) (hm2 : m ≤ 12)
    (hd1 : 1 ≤ d) (hd2 : d ≤ daysInMonth y m) :
    1 ≤ dayOfYear y m d ∧ dayOfYear y m d ≤ 366 := by
  unfold dayOfYear
  by_cases hl : isLeap y <;>
    (interval_cases m <;> simp_all [cumDays, daysInMonth] <;> omega)

end SatDownload

namespace SatDownload

/-- C7: the Key Builder applied to the notebook's GOES segments (year unpadded,
ordinal padded to width 3, hour padded to width 2, separator '/') yields
exactly "noaa-goes16/ABI-L2-MCMIPM/2022/336/20". -/
theorem data_path_goes16 :
    data_path "noaa-goes16" "ABI-L2-MCMIPM" 2022 336 20 =
      "noaa-goes16/ABI-L2-MCMIPM/2022/336/20" := rfl

/-- C9: the segment-rendering step `str(v).zfill(w)` returns a string of length
`max w (length of the decimal rendering of v)` whose digits parse back to `v`:
it never truncates and never fails, so an over-wide value appears in full. -/
theorem zfill_render_spec (v w : Nat) :
    (pyZfill (natToString v) w).length = max w (natToString v).length ∧
    toNum (pyZfill (natToString v) w).data = v :=
  ⟨pyZfill_length _ _, toNum_pyZfill_natToString v w⟩

/-- C2 counterexample: rendering value 336 into a 2-digit-width segment
succeeds and yields the silently widened segment "336"; it is not an error. -/
theorem zfill_overflow_cex : pyZfill (natToString 336) 2 = "336" := rfl

/-- C2 (amended): the Key Builder's segment rendering never fails; when the
decimal rendering of the value does not fit in the pad width the segment is the
full decimal rendering, silently widened and never truncated — in particular
value 336 at width 2 renders as "336". -/
theorem zfill_overflow_widens :
    (∀ v w, w ≤ (natToString v).length → pyZfill (natToString v) w = natToString v) ∧
    pyZfill (natToString 336) 2 = "336" := by
  refine ⟨fun v w h => ?_, rfl⟩
  unfold pyZfill
  rw [if_pos h]

/-- Closed instance of `zfill_overflow_widens` at value 336, width 2. -/
theorem zfill_overflow_widens_witness :
    2 ≤ (natToString 336).length ∧ pyZfill (natToString 336) 2 = natToString 336 :=
  ⟨by decide, zfill_overflow_widens.1 336 2 (by decide)⟩

/-- C3: for equal-length strings of ASCII digits, the inclusive lexicographic
range test performed by the VIIRS range match (Python string comparison on both
endpoints) holds exactly when the numeric values are in the numeric range. -/
theorem lex_range_eq_numeric_range (t lo hi : String)
    (hl1 : lo.length = t.length) (hl2 : t.length = hi.length)
    (ht : ∀ c ∈ t.data, isDigitChar c = true)
    (hlo : ∀ c ∈ lo.data, isDigitChar c = true)
    (hhi : ∀ c ∈ hi.data, isDigitChar c = true) :
    (pyStrLe lo t = true ∧ pyStrLe t hi = true) ↔
      (toNum lo.data ≤ toNum t.data ∧ toNum t.data ≤ toNum hi.data) := by
  unfold pyStrLe
  rw [strLeAux_iff_toNum lo.data t.data hl1 hlo ht,
      strLeAux_iff_toNum t.data hi.data hl2 ht hhi]

/-- Closed instance of `lex_range_eq_numeric_range` at t = "2118",
lo = "2116", hi = "2119". -/
theorem lex_range_eq_numeric_range_witness :
    (pyStrLe "2116" "2118" = true ∧ pyStrLe "2118" "2119" = true) ↔
      (toNum "2116".data ≤ toNum "2118".data ∧ toNum "2118".data ≤ toNum "2119".data) :=
  lex_range_eq_numeric_range "2118" "2116" "2119" (by decide) (by decide)
    (by decide) (by decide) (by decide)

/-- C4: the Match Selector returns exactly the subsequence of the listing
satisfying the predicate — an order-preserving sublist, sound and complete,
with matching multiplicities — and the empty list, not an error, when nothing
matches. -/
theorem matchSelector_spec (p : String → Bool) (files : List String) :
    (matchSelector p files).Sublist files ∧
    (∀ f ∈ matchSelector p files, p f = true) ∧
    (∀ f ∈ files, p f = true → f ∈ matchSelector p files) ∧
    (∀ f, p f = true → (matchSelector p files).count f = files.count f) ∧
    ((∀ f ∈ files, p f = false) → matchSelector p files = []) := by
  refine ⟨List.filter_sublist files, ?_, ?_, ?_, ?_⟩
  · intro f hf
    exact (List.mem_filter.mp hf).2
  · intro f hf hp
    exact List.mem_filter.mpr ⟨hf, hp⟩
  · intro f hp
    exact List.count_filter hp
  · intro h
    exact List.filter_eq_nil_iff.mpr fun f hf => by simp [h f hf]

/-- Closed instance of `matchSelector_spec`: an exact match with zero hits
returns the empty list. -/
theorem matchSelector_spec_witness :
    matchSelector (fun s => s == "nomatch") ["a_1", "b_2"] = [] :=
  (matchSelector_spec (fun s => s == "nomatch") ["a_1", "b_2"]).2.2.2.2 (by decide)

end SatDownload

namespace SatDownload

theorem validDate_iff (y m d : Nat) :
    validDate y m d = true ↔
      (1 ≤ y ∧ y ≤ 9999 ∧ 1 ≤ m ∧ m ≤ 12 ∧ 1 ≤ d ∧ d ≤ daysInMonth y m) := by
  simp [validDate, Bool.and_eq_true, decide_eq_true_eq, and_assoc]

/-- C5: every date the Calendar Resolver accepts yields a string of exactly 3
ASCII digits; January 1 of any accepted year yields "001", and December 31
yields "366" in leap years and "365" otherwise. -/
theorem julian_day_spec :
    (∀ y m d s, julian_day y m d = some s →
        s.length = 3 ∧ ∀ c ∈ s.data, isDigitChar c = true) ∧
    (∀ y, 1 ≤ y → y ≤ 9999 → julian_day y 1 1 = some "001") ∧
    (∀ y, 1 ≤ y → y ≤ 9999 → isLeap y = true → julian_day y 12 31 = some "366") ∧
    (∀ y, 1 ≤ y → y ≤ 9999 → isLeap y = false → julian_day y 12 31 = some "365") := by
  refine ⟨?_, ?_, ?_, ?_⟩
  · intro y m d s h
    unfold julian_day at h
    split_ifs at h with hv
    · obtain ⟨-, -, hm1, hm2, hd1, hd2⟩ := (validDate_iff y m d).mp hv
      obtain ⟨hlo, hhi⟩ := dayOfYear_bounds y m d hm1 hm2 hd1 hd2
      obtain rfl : pyZfill (natToString (dayOfYear y m d)) 3 = s := by
        injection h
      constructor
      · rw [pyZfill_length]
        have hlen : (natToDigitsAux (dayOfYear y m d + 1) (dayOfYear y m d)).length ≤ 3 :=
          natToDigitsAux_length _ _ 3 (by norm_num) (by norm_num; omega)
        have : (natToString (dayOfYear y m d)).length ≤ 3 := hlen
        omega
      · exact pyZfill_digits _ _ (natToString_digits _)
  · intro y h1 h2
    have hv : validDate y 1 1 = true :=
      (validDate_iff y 1 1).mpr ⟨h1, h2, by norm_num, by norm_num, by norm_num, by
        show 1 ≤ 31; norm_num⟩
    unfold julian_day
    rw [if_pos hv]
    rfl
  · intro y h1 h2 hl
    have hv : validDate y 12 31 = true :=
      (validDate_iff y 12 31).mpr ⟨h1, h2, by norm_num, by norm_num, by norm_num, by
        show 31 ≤ 31; norm_num⟩
    unfold julian_day
    rw [if_pos hv]
    have h366 : dayOfYear y 12 31 = 366 := by
      rw [dayOfYear_dec31, if_pos hl]
    rw [h366]
    rfl
  · intro y h1 h2 hl
    have hv : validDate y 12 31 = true :=
      (validDate_iff y 12 31).mpr ⟨h1, h2, by norm_num, by norm_num, by norm_num, by
        show 31 ≤ 31; norm_num⟩
    unfold julian_day
    rw [if_pos hv]
    have h365 : dayOfYear y 12 31 = 365 := by
      rw [dayOfYear_dec31, if_neg (by simp [hl])]
    rw [h365]
    rfl

/-- Closed instances of `julian_day_spec`: the 3-digit shape at (2022, 12, 2),
"001" for 2022-01-01, "366" for 2024-12-31, "365" for 2023-12-31. -/
theorem julian_day_spec_witness :
    ("336".length = 3 ∧ ∀ c ∈ "336".data, isDigitChar c = true) ∧
    julian_day 2022 1 1 = some "001" ∧
    julian_day 2024 12 31 = some "366" ∧
    julian_day 2023 12 31 = some "365" :=
  ⟨julian_day_spec.1 2022 12 2 "336" rfl,
   julian_day_spec.2.1 2022 (by decide) (by decide),
   julian_day_spec.2.2.1 2024 (by decide) (by decide) (by decide),
   julian_day_spec.2.2.2 2023 (by decide) (by decide) (by decide)⟩

/-- C6 counterexample: the resolver also fails at (10000, 1, 1), a date whose
month and day are in range for the year (January has 31 days): failure is not
characterized by the month/day check alone, the `datetime` year range 1–9999
matters too. -/
theorem julian_day_year_range_cex :
    julian_day 10000 1 1 = none ∧ daysInMonth 10000 1 = 31 := ⟨rfl, rfl⟩

/-- C6 (amended): the Calendar Resolver fails exactly when the year is outside
`datetime`'s 1–9999 range or (month, day) is out of range for the given year
under proleptic Gregorian leap-year rules; in particular it fails for
(2023, 2, 29) and returns "060" for (2024, 2, 29). -/
theorem julian_day_invalid_iff :
    (∀ y m d, julian_day y m d = none ↔
        ¬(1 ≤ y ∧ y ≤ 9999 ∧ 1 ≤ m ∧ m ≤ 12 ∧ 1 ≤ d ∧ d ≤ daysInMonth y m)) ∧
    julian_day 2023 2 29 = none ∧ julian_day 2024 2 29 = some "060" := by
  refine ⟨fun y m d => ?_, rfl, rfl⟩
  rw [← validDate_iff]
  unfold julian_day
  by_cases hv : validDate y m d = true
  · simp [hv]
  · simp [hv]

end SatDownload

namespace SatDownload

/-- C1 counterexample: "A_B_C_s2022" splits into four tokens but its time token
has only 5 characters; the slice `[8:12]` clamps and the extractor returns the
empty string as a successful result instead of failing. -/
theorem extractABIStart_short_token_cex : extractABIStart "A_B_C_s2022" = some "" := rfl

/-- C1 (amended): on a filename whose last path component splits into at least
four '_'-tokens and whose fourth token starts with "s20223362030", the ABI
extractor returns "2030" (characters 8–12 of that token); with fewer than four
tokens it fails; but whenever the time token is shorter than 12 characters
(the end of the `[8:12]` slice) it still succeeds, returning the clamped
partial slice of fewer than 4 characters — possibly empty — instead of
failing. -/
theorem extractABIStart_spec :
    (∀ (f : String) (r : List Char),
        (splitChar '_' (basename f)).getD 3 [] =
          's' :: '2' :: '0' :: '2' :: '2' :: '3' :: '3' :: '6' :: '2' :: '0' :: '3' :: '0' :: r →
        3 < (splitChar '_' (basename f)).length →
        extractABIStart f = some "2030") ∧
    (∀ f : String, (splitChar '_' (basename f)).length ≤ 3 → extractABIStart f = none) ∧
    (∀ f : String, 3 < (splitChar '_' (basename f)).length →
        ((splitChar '_' (basename f)).getD 3 []).length < 12 →
        ∃ s : String, extractABIStart f = some s ∧ s.length < 4) := by
  refine ⟨?_, ?_, ?_⟩
  · intro f r htok hlen
    show (if 3 < (splitChar '_' (basename f)).length then
        some (String.mk (pySlice ((splitChar '_' (basename f)).getD 3 []) 8 12))
      else none) = some "2030"
    rw [if_pos hlen, htok]
    rfl
  · intro f hlen
    show (if 3 < (splitChar '_' (basename f)).length then
        some (String.mk (pySlice ((splitChar '_' (basename f)).getD 3 []) 8 12))
      else none) = none
    rw [if_neg (by omega)]
  · intro f hlen htok
    refine ⟨String.mk (pySlice ((splitChar '_' (basename f)).getD 3 []) 8 12), ?_, ?_⟩
    · show (if 3 < (splitChar '_' (basename f)).length then
          some (String.mk (pySlice ((splitChar '_' (basename f)).getD 3 []) 8 12))
        else none) =
          some (String.mk (pySlice ((splitChar '_' (basename f)).getD 3 []) 8 12))
      rw [if_pos hlen]
    · show (pySlice ((splitChar '_' (basename f)).getD 3 []) 8 12).length < 4
      simp only [pySlice, List.length_take, List.length_drop]
      omega

/-- Closed instances of `extractABIStart_spec`: a realistic ABI filename gives
"2030"; a delimiter-free name fails; a 4-token name whose 9-character time
token falls inside the short regime still succeeds with a partial slice. -/
theorem extractABIStart_spec_witness :
    extractABIStart
        "OR_ABI-L2-MCMIPM2-M6_G16_s20223362030255_e20223362030313_c20223362030392.nc" =
      some "2030" ∧
    extractABIStart "toofewtokens" = none ∧
    ∃ s : String, extractABIStart "A_B_C_s2022336X" = some s ∧ s.length < 4 :=
  ⟨extractABIStart_spec.1
      "OR_ABI-L2-MCMIPM2-M6_G16_s20223362030255_e20223362030313_c20223362030392.nc"
      ['2', '5', '5'] (by decide) (by decide),
   extractABIStart_spec.2.1 "toofewtokens" (by decide),
   extractABIStart_spec.2.2 "A_B_C_s2022336X" (by decide) (by decide)⟩

/-- C8 counterexample: a 404 response carrying a content-length header still
yields the size report and the saved body — the probe never branches on the
status code, so a non-200 response is treated like an existing object. -/
theorem webProbe_404_cex :
    webProbe (some ⟨404, some "1234", [60, 104, 116, 109, 108, 62]⟩) =
      some ("1234", [60, 104, 116, 109, 108, 62]) := rfl

/-- C8 (amended): the single-object probe issues one GET; for any response that
arrives with a content-length header it reports that header value as the size
and saves the body, regardless of the status code (which is only printed); it
fails when the header is absent or on transport failure. -/
theorem webProbe_spec :
    (∀ (status : Nat) (sz : String) (body : List Nat),
        webProbe (some ⟨status, some sz, body⟩) = some (sz, body)) ∧
    (∀ (status : Nat) (body : List Nat), webProbe (some ⟨status, none, body⟩) = none) ∧
    webProbe none = none :=
  ⟨fun _ _ _ => rfl, fun _ _ => rfl, rfl⟩

/-- C10: when the start bound is lexicographically greater than the end bound
(both 4-digit ASCII times), no extracted substring can satisfy both inclusive
comparisons, so whenever the VIIRS range match returns at all it returns the
empty list: the window never wraps across an hour or day boundary. -/
theorem viirsRangeMatches_inverted_empty (lo hi : String)
    (hlo : lo.length = 4) (hhi : hi.length = 4)
    (hlod : ∀ c ∈ lo.data, isDigitChar c = true)
    (hhid : ∀ c ∈ hi.data, isDigitChar c = true)
    (hgt : strLeAux lo.data hi.data = false) :
    ∀ (files res : List String), viirsRangeMatches lo hi files = some res → res = [] := by
  intro files
  induction files with
  | nil =>
    intro res h
    unfold viirsRangeMatches at h
    exact (Option.some_inj.mp h).symm
  | cons f fs ih =>
    intro res h
    unfold viirsRangeMatches at h
    cases hx : extractVIIRSStart f with
    | none => rw [hx] at h; exact absurd h (by simp)
    | some t =>
      rw [hx] at h
      cases hr : viirsRangeMatches lo hi fs with
      | none => rw [hr] at h; exact absurd h (by simp)
      | some rest =>
        rw [hr] at h
        have hrest : rest = [] := ih rest hr
        have hcond : (strLeAux lo.data t && strLeAux t hi.data) = false := by
          by_contra hc
          have hc' : strLeAux lo.data t = true ∧ strLeAux t hi.data = true := by
            rcases Bool.eq_false_or_eq_true (strLeAux lo.data t) with h1 | h1 <;>
              rcases Bool.eq_false_or_eq_true (strLeAux t hi.data) with h2 | h2 <;>
                simp [h1, h2] at hc ⊢
          exact absurd (strLeAux_trans lo.data t hi.data hc'.1 hc'.2) (by simp [hgt])
        simp only [hcond, Bool.false_eq_true, if_false] at h
        rw [← Option.some_inj.mp h, hrest]

/-- Closed instance of `viirsRangeMatches_inverted_empty` with bounds
start = "2359" > end = "0001" on a one-element listing. -/
theorem viirsRangeMatches_inverted_empty_witness :
    viirsRangeMatches "2359" "0001" ["p/A_B_C_s202210161200111"] = some [] := by
  rcases h : viirsRangeMatches "2359" "0001" ["p/A_B_C_s202210161200111"] with _ | res
  · exact absurd h (by decide)
  · exact congrArg some
      (viirsRangeMatches_inverted_empty "2359" "0001" (by decide) (by decide)
        (by decide) (by decide) (by decide) ["p/A_B_C_s202210161200111"] res h)

end SatDownload
